import Mathlib

/-!
Shallow embedding of the NovaRetail customer dashboard (`src/app.py`):
load → normalize column names → schema check → type coercion →
sidebar multi-select filters with an "All" sentinel → aggregation → render.

Datasets are ordered lists of rows.  A raw cell (as loaded from the
spreadsheet) is a string, a number, or null (an empty/NaN cell); dates are
modelled as integer timestamps and the numeric/date parsers coerce
unparsable values to null (`none`), mirroring `errors="coerce"`.
-/

namespace NovaRetail

/-- A raw spreadsheet cell: text, a number, or an empty/NaN cell. -/
inductive Raw where
  | str (s : String)
  | num (n : Int)
  | null
deriving DecidableEq, Repr

/-- A row of the dataset as loaded, before type coercion (`src/app.py`
lines 29-42 list the columns).  The three columns that `app.py` coerces
(`purchaseamount`, `customersatisfaction`, `transactiondate`) are kept raw
here; the categorical/id columns are strings that may be null (NaN). -/
structure RawRow where
  label : Option String
  customerid : Option String
  transactionid : Option String
  transactiondate : Raw
  productcategory : Option String
  purchaseamount : Raw
  customeragegroup : Option String
  customergender : Option String
  customerregion : Option String
  customersatisfaction : Raw
  retailchannel : Option String
deriving DecidableEq, Repr

/-- A row after type coercion (`src/app.py` lines 51-53): the coerced
columns hold `Option Int` (`none` is NaN/NaT). -/
structure Row where
  label : Option String
  customerid : Option String
  transactionid : Option String
  transactiondate : Option Int
  productcategory : Option String
  purchaseamount : Option Int
  customeragegroup : Option String
  customergender : Option String
  customerregion : Option String
  customersatisfaction : Option Int
  retailchannel : Option String
deriving DecidableEq, Repr

/-- Parse a digit string to a number; `none` unless the string is one or
more decimal digits. -/
def digitsToNat (cs : List Char) : Option Nat :=
  if cs.isEmpty then none
  else if cs.all Char.isDigit then
    some (cs.foldl (fun acc c => acc * 10 + (c.toNat - 48)) 0)
  else none

/-- Parse an optionally-signed integer literal; `none` on anything else. -/
def parseInt (s : String) : Option Int :=
  match s.data with
  | '-' :: rest => (digitsToNat rest).map (fun n => -(n : Int))
  | cs => (digitsToNat cs).map (fun n => (n : Int))

/-- `pd.to_numeric(col, errors="coerce")` on one cell: numbers pass
through, numeric text is parsed, anything else becomes null.  Total:
malformed values never raise. -/
def toNumeric : Raw → Option Int
  | .num n => some n
  | .str s => parseInt s
  | .null => none

/-- `pd.to_datetime(col, errors="coerce")` on one cell, with datetimes
modelled as integer timestamps: numeric cells pass through, parsable text
yields a timestamp, anything else becomes NaT (`none`).  Total: malformed
values never raise. -/
def toDatetime : Raw → Option Int
  | .num n => some n
  | .str s => parseInt s
  | .null => none

/-- Coerce the three typed columns of one row (`src/app.py` lines 51-53). -/
def coerceRow (rr : RawRow) : Row :=
  { label := rr.label
    customerid := rr.customerid
    transactionid := rr.transactionid
    transactiondate := toDatetime rr.transactiondate
    productcategory := rr.productcategory
    purchaseamount := toNumeric rr.purchaseamount
    customeragegroup := rr.customeragegroup
    customergender := rr.customergender
    customerregion := rr.customerregion
    customersatisfaction := toNumeric rr.customersatisfaction
    retailchannel := rr.retailchannel }

/-- Data cleaning (`src/app.py` lines 51-55): coerce the typed columns,
then `df.dropna(subset=["purchaseamount"])` keeps exactly the rows whose
coerced `purchaseamount` is non-null. -/
def cleanData (raws : List RawRow) : List Row :=
  (raws.map coerceRow).filter (fun r => r.purchaseamount.isSome)

/-- Python `str.strip()` over the characters of a string: drop leading
and trailing whitespace. -/
def stripChars (cs : List Char) : List Char :=
  ((cs.dropWhile Char.isWhitespace).reverse.dropWhile Char.isWhitespace).reverse

/-- Column-name normalization (`src/app.py` lines 22-27):
strip, lowercase, replace spaces with underscores. -/
def normalizeCol (s : String) : String :=
  String.mk ((stripChars s.data).map
    (fun c => if c = ' ' then '_' else c.toLower))

/-- The required logical fields (`src/app.py` lines 30-42). -/
def requiredFields : List String :=
  ["label", "customerid", "transactionid", "transactiondate",
   "productcategory", "purchaseamount", "customeragegroup",
   "customergender", "customerregion", "customersatisfaction",
   "retailchannel"]

/-- Code-point lexicographic comparison of character lists: the order
Python's `sorted` and pandas use on strings. -/
def charListLe : List Char → List Char → Bool
  | [], _ => true
  | _ :: _, [] => false
  | a :: as, b :: bs =>
    if a.toNat < b.toNat then true
    else if b.toNat < a.toNat then false
    else charListLe as bs

/-- Python's `<=` on strings: code-point lexicographic. -/
def strle (a b : String) : Bool :=
  charListLe a.data b.data

/-- `strle` as a relation, for use with `List.insertionSort`. -/
def strLeRel (a b : String) : Prop :=
  strle a b = true

instance : DecidableRel strLeRel :=
  fun a b => inferInstanceAs (Decidable (strle a b = true))

/-- `required_fields - set(df.columns)` (`src/app.py` line 44), after the
columns have been normalized. -/
def missingFields (cols : List String) : List String :=
  requiredFields.filter (fun f => !(cols.map normalizeCol).contains f)

/-- The missing fields as reported by the error message
(`sorted(list(missing_fields))`, `src/app.py` line 46). -/
def missingSorted (cols : List String) : List String :=
  (missingFields cols).insertionSort strLeRel

/-- `series.isin(sel)` for one cell: a null cell matches nothing. -/
def isin : Option String → List String → Bool
  | some s, sel => sel.contains s
  | none, _ => false

/-- `df[col].unique()`: the distinct cell values of a column, nulls
included (pandas `unique` does not drop NaN). -/
def uniqueVals (get : Row → Option String) (d : List Row) : List (Option String) :=
  (d.map get).dedup

/-- Python `sorted` over the unique values of a column, as used by
`multiselect_all` (`src/app.py` line 63).  Comparing NaN (a float) with a
string raises `TypeError`, modelled as `none`; otherwise the values are
sorted ascending. -/
def pySorted (vals : List (Option String)) : Option (List (Option String)) :=
  if none ∈ vals ∧ vals.any (·.isSome) then
    none
  else
    some ((((vals.filterMap id).insertionSort strLeRel).map some)
          ++ vals.filter (·.isNone))

/-- The option list of one sidebar multi-select
(`multiselect_all`, `src/app.py` lines 62-68): `["All"] + sorted(values)`,
or a `TypeError` (`none`) if sorting raised. -/
def multiselectOptions (get : Row → Option String) (d : List Row) :
    Option (List (Option String)) :=
  (pySorted (uniqueVals get d)).map (fun vs => some "All" :: vs)

/-- The default selection of every multi-select (`default=["All"]`,
`src/app.py` line 67). -/
def defaultSelection : List String := ["All"]

/-- Spec-side definition, for comparison with `multiselectOptions` only:
"sorted set of non-null distinct values" of a column. -/
def specSortedDistinct (get : Row → Option String) (d : List Row) : List String :=
  ((d.filterMap get).dedup).insertionSort strLeRel

/-- One user interaction's filter selections: the four sidebar
multi-selects (`src/app.py` lines 70-73). -/
structure FilterSpec where
  segments : List String
  regions : List String
  categories : List String
  channels : List String
deriving DecidableEq, Repr

/-- One filtering step (`src/app.py` lines 80-90): if "All" is among the
selected values the dataset passes through unchanged, otherwise only rows
whose column value is in the selection are kept. -/
def applyFilter (get : Row → Option String) (sel : List String) (d : List Row) :
    List Row :=
  if "All" ∈ sel then d else d.filter (fun r => isin (get r) sel)

/-- The full filtering logic (`src/app.py` lines 78-90): segment, region,
category, channel filters applied in program order to a copy of the
cleaned dataset. -/
def applyFilters (F : FilterSpec) (d : List Row) : List Row :=
  applyFilter (fun r => r.retailchannel) F.channels
    (applyFilter (fun r => r.productcategory) F.categories
      (applyFilter (fun r => r.customerregion) F.regions
        (applyFilter (fun r => r.label) F.segments d)))

/-- The four filterable dimensions. -/
inductive Dim where
  | segment
  | region
  | category
  | channel
deriving DecidableEq, Repr

/-- The column each dimension filters on. -/
def Dim.col : Dim → Row → Option String
  | .segment => fun r => r.label
  | .region => fun r => r.customerregion
  | .category => fun r => r.productcategory
  | .channel => fun r => r.retailchannel

/-- The selection each dimension uses. -/
def Dim.sel : Dim → FilterSpec → List String
  | .segment => fun F => F.segments
  | .region => fun F => F.regions
  | .category => fun F => F.categories
  | .channel => fun F => F.channels

/-- Apply the per-dimension filters in an arbitrary dimension order. -/
def applyFiltersIn (order : List Dim) (F : FilterSpec) (d : List Row) : List Row :=
  order.foldl (fun acc dim => applyFilter (Dim.col dim) (Dim.sel dim F) acc) d

/-- The row-membership predicate of one dimension's filter step. -/
def dimPred (dim : Dim) (F : FilterSpec) (r : Row) : Bool :=
  decide ("All" ∈ Dim.sel dim F) || isin (Dim.col dim r) (Dim.sel dim F)

/-- Pandas `Series.sum()` over a measure column: nulls (NaN) are
skipped. -/
def sumMeasure (m : Row → Option Int) (rows : List Row) : Int :=
  (rows.filterMap m).sum

/-- Pandas `Series.mean()` over a measure column: nulls skipped; NaN
(`none`) when no non-null value remains. -/
def meanMeasure (m : Row → Option Int) (rows : List Row) : Option ℚ :=
  let vs := rows.filterMap m
  if vs.isEmpty then none
  else some (((vs.map (fun v => (v : ℚ))).sum) / vs.length)

/-- The group keys of `df.groupby(col)`: the distinct non-null values of
the key column (pandas groupby drops null keys), sorted ascending —
groupby sorts keys by default, and the charts additionally call
`sort_values` on the key. -/
def groupKeys (key : Row → Option String) (d : List Row) : List String :=
  ((d.filterMap key).dedup).insertionSort strLeRel

/-- `df.groupby(key, as_index=False)[measure].sum().sort_values(key)`
(`src/app.py` lines 115-120 and 135-140): one output row per non-null key
value, carrying the sum of the measure over that group's rows. -/
def groupSum (key : Row → Option String) (m : Row → Option Int) (d : List Row) :
    List (String × Int) :=
  (groupKeys key d).map
    (fun k => (k, sumMeasure m (d.filter (fun r => decide (key r = some k)))))

/-- Revenue by customer segment (`segment_revenue`, `src/app.py`
lines 115-120). -/
def segmentRevenue (d : List Row) : List (String × Int) :=
  groupSum (fun r => r.label) (fun r => r.purchaseamount) d

/-- Revenue by region (`region_revenue`, `src/app.py` lines 135-140). -/
def regionRevenue (d : List Row) : List (String × Int) :=
  groupSum (fun r => r.customerregion) (fun r => r.purchaseamount) d

/-- Satisfaction vs revenue per segment (`sat_rev`, `src/app.py`
lines 159-166): mean satisfaction and summed revenue per segment; groupby
sorts the keys ascending. -/
def satRev (d : List Row) : List (String × Option ℚ × Int) :=
  (groupKeys (fun r => r.label) d).map
    (fun k =>
      let grp := d.filter (fun r => decide (r.label = some k))
      (k, meanMeasure (fun r => r.customersatisfaction) grp,
          sumMeasure (fun r => r.purchaseamount) grp))

/-- Everything the dashboard renders after a successful run. -/
structure Output where
  totalRevenue : Int
  uniqueCustomers : Nat
  avgSatisfaction : Option ℚ
  segRevenue : List (String × Int)
  regRevenue : List (String × Int)
  satRevenue : List (String × Option ℚ × Int)
  table : List Row
deriving DecidableEq, Repr

/-- The outcome of one run of the script (one user interaction). -/
inductive RunOutcome where
  | schemaError (missing : List String)
  | emptyWarning
  | rendered (out : Output)
deriving DecidableEq, Repr

/-- Which outcomes are fatal errors: a schema error is (`st.error` +
`st.stop`), the empty-result warning is not (`st.warning` + `st.stop`). -/
def RunOutcome.isFatal : RunOutcome → Bool
  | .schemaError _ => true
  | .emptyWarning => false
  | .rendered _ => false

/-- `df["customerid"].nunique()`: distinct non-null customer ids. -/
def nuniqueCustomers (d : List Row) : Nat :=
  ((d.filterMap (fun r => r.customerid)).dedup).length

/-- The run from after the schema check (`src/app.py` lines 50-193):
clean, filter, stop with a warning on an empty result, otherwise compute
KPIs, the three aggregations, and the filtered table. -/
def afterSchema (raws : List RawRow) (F : FilterSpec) : RunOutcome :=
  if (applyFilters F (cleanData raws)).isEmpty then .emptyWarning
  else
    .rendered
      { totalRevenue :=
          sumMeasure (fun r => r.purchaseamount) (applyFilters F (cleanData raws))
        uniqueCustomers := nuniqueCustomers (applyFilters F (cleanData raws))
        avgSatisfaction :=
          meanMeasure (fun r => r.customersatisfaction)
            (applyFilters F (cleanData raws))
        segRevenue := segmentRevenue (applyFilters F (cleanData raws))
        regRevenue := regionRevenue (applyFilters F (cleanData raws))
        satRevenue := satRev (applyFilters F (cleanData raws))
        table := applyFilters F (cleanData raws) }

/-- One full run of the script after the file is loaded
(`src/app.py` lines 21-193): normalize the column names, abort with a
`SchemaError` listing the missing required fields if any, otherwise
continue with the dataset's content unchanged. -/
def runPipeline (cols : List String) (raws : List RawRow) (F : FilterSpec) :
    RunOutcome :=
  if (missingFields cols).isEmpty then afterSchema raws F
  else .schemaError (missingSorted cols)

/-- A concrete sample row used to instantiate hypotheses on concrete data. -/
def exRow : Row :=
  { label := some "Consumer"
    customerid := some "C1"
    transactionid := some "T1"
    transactiondate := some 1
    productcategory := some "Tech"
    purchaseamount := some 100
    customeragegroup := some "18-25"
    customergender := some "F"
    customerregion := some "West"
    customersatisfaction := some 4
    retailchannel := some "Online" }

lemma applyFilter_eq_filter (get : Row → Option String) (sel : List String)
    (d : List Row) :
    applyFilter get sel d
      = d.filter (fun r => decide ("All" ∈ sel) || isin (get r) sel) := by
  unfold applyFilter
  by_cases h : "All" ∈ sel
  · simp [h]
  · simp [h]

lemma applyFilter_sublist (get : Row → Option String) (sel : List String)
    (d : List Row) : (applyFilter get sel d).Sublist d := by
  rw [applyFilter_eq_filter]
  exact List.filter_sublist d

lemma applyFilters_sublist (F : FilterSpec) (d : List Row) :
    (applyFilters F d).Sublist d :=
  ((applyFilter_sublist _ _ _).trans
    ((applyFilter_sublist _ _ _).trans
      ((applyFilter_sublist _ _ _).trans (applyFilter_sublist _ _ _))))

lemma applyFilter_nil (get : Row → Option String) (sel : List String) :
    applyFilter get sel [] = [] := by
  unfold applyFilter
  split <;> rfl

lemma applyFilter_dim (dim : Dim) (F : FilterSpec) (d : List Row) :
    applyFilter (Dim.col dim) (Dim.sel dim F) d
      = d.filter (fun r => dimPred dim F r) :=
  applyFilter_eq_filter _ _ d

lemma applyFiltersIn_eq_filter (order : List Dim) (F : FilterSpec) (d : List Row) :
    applyFiltersIn order F d
      = d.filter (fun r => order.all (fun dim => dimPred dim F r)) := by
  induction order generalizing d with
  | nil => simp [applyFiltersIn]
  | cons dim rest ih =>
    show applyFiltersIn rest F (applyFilter (Dim.col dim) (Dim.sel dim F) d) = _
    rw [ih, applyFilter_dim, List.filter_filter]
    refine List.filter_congr (fun r _ => ?_)
    simp [List.all_cons, Bool.and_comm]

lemma perm_all_eq {o1 o2 : List Dim} (h : o1.Perm o2) (f : Dim → Bool) :
    o1.all f = o2.all f := by
  rw [Bool.eq_iff_iff, List.all_eq_true, List.all_eq_true]
  exact ⟨fun H x hx => H x (h.mem_iff.mpr hx), fun H x hx => H x (h.mem_iff.mp hx)⟩

lemma applyFilters_eq_canonical (F : FilterSpec) (d : List Row) :
    applyFiltersIn [Dim.segment, Dim.region, Dim.category, Dim.channel] F d
      = applyFilters F d := rfl

/-- Claim C1: for every dataset and filter specification, the filtered
dataset is a subset of the input's rows — every row of
`applyFilters F d` already occurs, with identical column values, in `d`;
no row is added and no cell is altered (rows pass through `List.filter`
untouched). -/
theorem filters_return_subset (F : FilterSpec) (d : List Row) (r : Row)
    (h : r ∈ applyFilters F d) : r ∈ d :=
  (applyFilters_sublist F d).subset h

/-- Witness for C1 at a concrete dataset and filter specification. -/
theorem filters_return_subset_witness : exRow ∈ [exRow] :=
  filters_return_subset ⟨["All"], ["All"], ["Tech"], ["All"]⟩ [exRow] exRow
    (by decide)

/-- Claim C2: the per-dimension filters commute — applying them in any
permutation of the dimension order yields the identical final row list,
and the canonical order is exactly the program's `applyFilters`. -/
theorem filters_commute (F : FilterSpec) (d : List Row) (o1 o2 : List Dim)
    (h : o1.Perm o2) :
    applyFiltersIn o1 F d = applyFiltersIn o2 F d ∧
    applyFiltersIn [Dim.segment, Dim.region, Dim.category, Dim.channel] F d
      = applyFilters F d := by
  refine ⟨?_, applyFilters_eq_canonical F d⟩
  rw [applyFiltersIn_eq_filter, applyFiltersIn_eq_filter]
  refine List.filter_congr (fun r _ => perm_all_eq h _)

/-- Witness for C2: a reversed dimension order gives the same result as
the program order on a concrete dataset. -/
theorem filters_commute_witness :
    applyFiltersIn [Dim.channel, Dim.category, Dim.region, Dim.segment]
        ⟨["Consumer"], ["All"], ["All"], ["All"]⟩ [exRow]
      = applyFiltersIn [Dim.segment, Dim.region, Dim.category, Dim.channel]
        ⟨["Consumer"], ["All"], ["All"], ["All"]⟩ [exRow] :=
  (filters_commute ⟨["Consumer"], ["All"], ["All"], ["All"]⟩ [exRow]
    [Dim.channel, Dim.category, Dim.region, Dim.segment]
    [Dim.segment, Dim.region, Dim.category, Dim.channel] (by decide)).1

/-- Claim C3: the "All" sentinel is an identity for filtering — whenever
the selection contains "All" (alone or mixed with other values) the
dataset passes through unchanged, and selecting ["All"] for every
dimension returns exactly the coerced dataset. -/
theorem all_sentinel_identity :
    (∀ (get : Row → Option String) (sel : List String) (d : List Row),
        "All" ∈ sel → applyFilter get sel d = d) ∧
    ∀ raws : List RawRow,
      applyFilters ⟨["All"], ["All"], ["All"], ["All"]⟩ (cleanData raws)
        = cleanData raws := by
  constructor
  · intro get sel d h
    exact if_pos h
  · intro raws
    rfl

/-- Witness for C3 at a mixed selection containing "All". -/
theorem all_sentinel_identity_witness :
    applyFilter (fun r => r.label) ["All", "CA"] [exRow] = [exRow] :=
  all_sentinel_identity.1 (fun r => r.label) ["All", "CA"] [exRow] (by decide)

/-- Claim C5: an empty selection (no values, no "All") matches no rows —
the filter returns the empty list, distinguished from the ["All"]
selection which returns every row; an empty selection on any one
dimension makes the whole filtered result empty. -/
theorem empty_selection_no_rows :
    (∀ (get : Row → Option String) (d : List Row),
        applyFilter get [] d = [] ∧ applyFilter get ["All"] d = d) ∧
    ∀ (F : FilterSpec) (d : List Row), F.segments = [] →
      applyFilters F d = [] := by
  constructor
  · intro get d
    constructor
    · rw [applyFilter_eq_filter, List.filter_eq_nil_iff]
      intro r _
      cases get r <;> simp [isin]
    · exact if_pos (List.mem_singleton.mpr rfl)
  · intro F d h
    unfold applyFilters
    rw [show applyFilter (fun r => r.label) F.segments d = [] from ?_]
    · rw [applyFilter_nil, applyFilter_nil, applyFilter_nil]
    · rw [h, applyFilter_eq_filter, List.filter_eq_nil_iff]
      intro r _
      cases r.label <;> simp [isin]

/-- Witness for C5: deselecting everything on the segment dimension
yields zero rows on a concrete dataset. -/
theorem empty_selection_no_rows_witness :
    applyFilters ⟨[], ["All"], ["All"], ["All"]⟩ [exRow] = [] :=
  empty_selection_no_rows.2 ⟨[], ["All"], ["All"], ["All"]⟩ [exRow] rfl

/-- Claim C10: each filtering step only removes rows in place — the
filtered dataset is an order-preserving subsequence (`List.Sublist`) of
the coerced dataset, both for the whole filter chain and for every single
step; the input dataset value itself is never changed (filtering is a
pure function of a copy, `filtered_df = df.copy()`). -/
theorem filters_preserve_order (F : FilterSpec) (d : List Row) :
    (applyFilters F d).Sublist d ∧
    ∀ (get : Row → Option String) (sel : List String),
      (applyFilter get sel d).Sublist d :=
  ⟨applyFilters_sublist F d, fun get sel => applyFilter_sublist get sel d⟩

/-- A concrete raw row: well-formed purchase amount, malformed
transaction date, null satisfaction. -/
def exRawRow : RawRow :=
  { label := some "Consumer"
    customerid := some "C1"
    transactionid := some "T1"
    transactiondate := .str "not-a-date"
    productcategory := some "Tech"
    purchaseamount := .num 100
    customeragegroup := some "18-25"
    customergender := some "F"
    customerregion := some "West"
    customersatisfaction := .null
    retailchannel := some "Online" }

/-- A concrete raw row whose purchase amount fails numeric coercion. -/
def exRawBad : RawRow :=
  { label := some "Corporate"
    customerid := some "C2"
    transactionid := some "T2"
    transactiondate := .num 5
    productcategory := some "Home"
    purchaseamount := .str "oops"
    customeragegroup := some "26-35"
    customergender := some "M"
    customerregion := some "East"
    customersatisfaction := .num 3
    retailchannel := some "Store" }

lemma cleanData_eq (raws : List RawRow) :
    cleanData raws
      = (raws.filter (fun rr => (toNumeric rr.purchaseamount).isSome)).map
          coerceRow := by
  unfold cleanData
  rw [List.filter_map]
  rfl

lemma missingSorted_nil_iff (cols : List String) :
    missingSorted cols = [] ↔ missingFields cols = [] := by
  have hp := List.perm_insertionSort (α := String) strLeRel (missingFields cols)
  rw [← List.length_eq_zero, ← List.length_eq_zero, ← hp.length_eq]
  exact Iff.rfl

/-- Claim C6: type coercion is total (each of `toNumeric`/`toDatetime` is
a Lean function, so malformed cells yield `none` and never raise), the
cleaning step keeps exactly the rows whose coerced `purchaseamount` is
non-null, and kept rows retain the nulls of the other coerced columns
(`customersatisfaction`, `transactiondate`) unchanged. -/
theorem coercion_drops_only_required_nulls (raws : List RawRow) :
    cleanData raws
      = (raws.filter (fun rr => (toNumeric rr.purchaseamount).isSome)).map
          coerceRow ∧
    (∀ r ∈ cleanData raws, r.purchaseamount.isSome) ∧
    ∀ rr ∈ raws, (toNumeric rr.purchaseamount).isSome →
      coerceRow rr ∈ cleanData raws ∧
      (coerceRow rr).customersatisfaction = toNumeric rr.customersatisfaction ∧
      (coerceRow rr).transactiondate = toDatetime rr.transactiondate := by
  refine ⟨cleanData_eq raws, ?_, ?_⟩
  · intro r hr
    exact (List.mem_filter.mp hr).2
  · intro rr hrr hok
    refine ⟨?_, rfl, rfl⟩
    unfold cleanData
    exact List.mem_filter.mpr ⟨List.mem_map_of_mem coerceRow hrr, hok⟩

/-- Witness for C6: on a concrete raw dataset, the row with a parsable
purchase amount is kept — with its null satisfaction and unparsable
(hence null) date retained. -/
theorem coercion_drops_only_required_nulls_witness :
    coerceRow exRawRow ∈ cleanData [exRawRow, exRawBad] ∧
    (coerceRow exRawRow).customersatisfaction
      = toNumeric exRawRow.customersatisfaction ∧
    (coerceRow exRawRow).transactiondate = toDatetime exRawRow.transactiondate :=
  (coercion_drops_only_required_nulls [exRawRow, exRawBad]).2.2 exRawRow
    (by decide) (by decide)

/-- Claim C7: after column-name normalization, the missing required
fields are exactly the set difference of the required canonical names
against the available columns; if any are missing the run aborts with a
`SchemaError` listing exactly (the sorted list of) those names, and
otherwise the run proceeds with the dataset's content unchanged. -/
theorem schema_check (cols : List String) (raws : List RawRow) (F : FilterSpec) :
    (∀ f, f ∈ missingSorted cols ↔
        f ∈ requiredFields ∧ f ∉ cols.map normalizeCol) ∧
    (missingSorted cols ≠ [] →
        runPipeline cols raws F = .schemaError (missingSorted cols)) ∧
    (missingSorted cols = [] → runPipeline cols raws F = afterSchema raws F) := by
  have hp := List.perm_insertionSort (α := String) strLeRel (missingFields cols)
  refine ⟨?_, ?_, ?_⟩
  · intro f
    rw [show (f ∈ missingSorted cols) ↔ f ∈ missingFields cols from hp.mem_iff]
    unfold missingFields
    simp [List.mem_filter]
  · intro h
    have hne : missingFields cols ≠ [] := fun hc =>
      h ((missingSorted_nil_iff cols).mpr hc)
    unfold runPipeline
    rw [if_neg (by simpa [List.isEmpty_iff] using hne)]
  · intro h
    unfold runPipeline
    rw [if_pos (by simpa [List.isEmpty_iff] using
      (missingSorted_nil_iff cols).mp h)]

/-- Witness for C7, both branches on concrete column lists: the full
(unnormalized) header passes the check, and a header missing
`purchaseamount` aborts with a `SchemaError` naming it. -/
theorem schema_check_witness :
    runPipeline
        ["Label", " CustomerID ", "TransactionID", "TransactionDate",
         "ProductCategory", "PurchaseAmount", "CustomerAgeGroup",
         "CustomerGender", "CustomerRegion", "CustomerSatisfaction",
         "RetailChannel"] [exRawRow] ⟨["All"], ["All"], ["All"], ["All"]⟩
      = afterSchema [exRawRow] ⟨["All"], ["All"], ["All"], ["All"]⟩ ∧
    runPipeline ["Label"] [exRawRow] ⟨["All"], ["All"], ["All"], ["All"]⟩
      = .schemaError (missingSorted ["Label"]) :=
  ⟨(schema_check _ [exRawRow] ⟨["All"], ["All"], ["All"], ["All"]⟩).2.2
      (by decide),
   (schema_check ["Label"] [exRawRow] ⟨["All"], ["All"], ["All"], ["All"]⟩).2.1
      (by decide)⟩

/-- Claim C8: when the schema check passes and the filtered result has
zero rows, the run ends in `EmptyResultWarning`: a non-fatal outcome that
halts all downstream aggregation and rendering (no `rendered` output is
produced). -/
theorem empty_result_halts (cols : List String) (raws : List RawRow)
    (F : FilterSpec) (hs : missingFields cols = [])
    (he : applyFilters F (cleanData raws) = []) :
    runPipeline cols raws F = .emptyWarning ∧
    RunOutcome.isFatal .emptyWarning = false ∧
    ∀ out : Output, runPipeline cols raws F ≠ .rendered out := by
  have hrun : runPipeline cols raws F = .emptyWarning := by
    unfold runPipeline
    rw [if_pos (by simp [hs])]
    unfold afterSchema
    rw [he]
    rfl
  exact ⟨hrun, rfl, fun out hout => by rw [hrun] at hout; exact nomatch hout⟩

/-- Witness for C8: a concrete run whose filters deselect everything ends
in the empty-result warning. -/
theorem empty_result_halts_witness :
    runPipeline requiredFields [exRawRow] ⟨[], [], [], []⟩ = .emptyWarning ∧
    RunOutcome.isFatal .emptyWarning = false ∧
    ∀ out : Output,
      runPipeline requiredFields [exRawRow] ⟨[], [], [], []⟩ ≠ .rendered out :=
  empty_result_halts requiredFields [exRawRow] ⟨[], [], [], []⟩ (by decide)
    (by decide)

lemma charListLe_total : ∀ as bs : List Char,
    charListLe as bs = true ∨ charListLe bs as = true := by
  intro as
  induction as with
  | nil => intro bs; left; rfl
  | cons a as ih =>
    intro bs
    cases bs with
    | nil => right; rfl
    | cons b bs =>
      by_cases hab : a.toNat < b.toNat
      · left; simp [charListLe, hab]
      · by_cases hba : b.toNat < a.toNat
        · right; simp [charListLe, hba]
        · rcases ih bs with h | h
          · left; simp [charListLe, hab, hba, h]
          · right; simp [charListLe, hab, hba, h]

lemma charListLe_trans : ∀ as bs cs : List Char,
    charListLe as bs = true → charListLe bs cs = true →
    charListLe as cs = true := by
  intro as
  induction as with
  | nil => intro bs cs _ _; rfl
  | cons a as ih =>
    intro bs cs h1 h2
    cases bs with
    | nil => exact absurd h1 (by simp [charListLe])
    | cons b bs =>
      cases cs with
      | nil => exact absurd h2 (by simp [charListLe])
      | cons c cs =>
        by_cases hab : a.toNat < b.toNat
        · by_cases hbc : b.toNat < c.toNat
          · simp [charListLe, Nat.lt_trans hab hbc]
          · by_cases hcb : c.toNat < b.toNat
            · simp [charListLe, hbc, hcb] at h2
            · simp [charListLe, show a.toNat < c.toNat by omega]
        · by_cases hba : b.toNat < a.toNat
          · simp [charListLe, hab, hba] at h1
          · by_cases hbc : b.toNat < c.toNat
            · simp [charListLe, show a.toNat < c.toNat by omega]
            · by_cases hcb : c.toNat < b.toNat
              · simp [charListLe, hbc, hcb] at h2
              · simp [charListLe, hab, hba] at h1
                simp [charListLe, hbc, hcb] at h2
                simp [charListLe, show ¬(a.toNat < c.toNat) by omega,
                      show ¬(c.toNat < a.toNat) by omega]
                exact ih bs cs h1 h2

instance : IsTotal String strLeRel :=
  ⟨fun a b => charListLe_total a.data b.data⟩

instance : IsTrans String strLeRel :=
  ⟨fun a b c => charListLe_trans a.data b.data c.data⟩

lemma sumMeasure_cons (m : Row → Option Int) (r : Row) (rows : List Row) :
    sumMeasure m (r :: rows) = (m r).getD 0 + sumMeasure m rows := by
  unfold sumMeasure
  cases h : m r <;> simp [List.filterMap_cons, h]

lemma sum_map_ite_zero (c : Int) : ∀ (ks : List String) (k0 : String),
    k0 ∉ ks → (ks.map (fun k => if k = k0 then c else 0)).sum = 0 := by
  intro ks
  induction ks with
  | nil => intros; rfl
  | cons k ks ih =>
    intro k0 h
    simp only [List.map_cons, List.sum_cons]
    rw [if_neg (fun hk : k = k0 => h (hk ▸ List.mem_cons_self k ks)),
        ih k0 (fun hm => h (List.mem_cons_of_mem k hm)), add_zero]

lemma sum_map_ite (c : Int) : ∀ (ks : List String) (k0 : String),
    ks.Nodup → k0 ∈ ks →
    (ks.map (fun k => if k = k0 then c else 0)).sum = c := by
  intro ks
  induction ks with
  | nil => intro k0 _ h; exact absurd h (List.not_mem_nil k0)
  | cons k ks ih =>
    intro k0 hnd hmem
    simp only [List.map_cons, List.sum_cons]
    rcases List.mem_cons.mp hmem with h | h
    · rw [if_pos h.symm,
          sum_map_ite_zero c ks k0 (fun hm => (List.nodup_cons.mp hnd).1
            (h ▸ hm)),
          add_zero]
    · rw [if_neg (fun hk : k = k0 => (List.nodup_cons.mp hnd).1 (hk ▸ h)),
          ih k0 (List.nodup_cons.mp hnd).2 h, zero_add]

lemma sum_groups (key : Row → Option String) (m : Row → Option Int)
    (ks : List String) (hnd : ks.Nodup) :
    ∀ d : List Row, (∀ r ∈ d, ∀ k, key r = some k → k ∈ ks) →
    (ks.map (fun k =>
        sumMeasure m (d.filter (fun r => decide (key r = some k))))).sum
      = sumMeasure m (d.filter (fun r => (key r).isSome)) := by
  intro d
  induction d with
  | nil =>
    intro _
    simp [sumMeasure, List.map_const']
  | cons r d ih =>
    intro hcov
    have hcov' : ∀ r' ∈ d, ∀ k, key r' = some k → k ∈ ks :=
      fun r' hr' => hcov r' (List.mem_cons_of_mem r hr')
    cases hkr : key r with
    | none =>
      have hmap :
          ks.map (fun k =>
            sumMeasure m ((r :: d).filter (fun r => decide (key r = some k))))
          = ks.map (fun k =>
            sumMeasure m (d.filter (fun r => decide (key r = some k)))) :=
        List.map_congr_left (fun k _ => by
          rw [List.filter_cons_of_neg (by simp [hkr])])
      rw [hmap, List.filter_cons_of_neg (by simp [hkr]), ih hcov']
    | some k0 =>
      have hk0 : k0 ∈ ks := hcov r (List.mem_cons_self r d) k0 hkr
      have hmap :
          ks.map (fun k =>
            sumMeasure m ((r :: d).filter (fun r => decide (key r = some k))))
          = ks.map (fun k =>
            (if k = k0 then (m r).getD 0 else 0)
              + sumMeasure m (d.filter (fun r => decide (key r = some k)))) :=
        List.map_congr_left (fun k _ => by
          by_cases hk : k = k0
          · subst hk
            rw [List.filter_cons_of_pos (by simp [hkr]), sumMeasure_cons,
                if_pos rfl]
          · rw [List.filter_cons_of_neg
                  (by simp [hkr]; exact fun h => hk h.symm),
                if_neg hk, zero_add])
      rw [hmap, List.sum_map_add, sum_map_ite _ ks k0 hnd hk0,
          List.filter_cons_of_pos (by simp [hkr]), sumMeasure_cons, ih hcov']

lemma groupKeys_nodup (key : Row → Option String) (d : List Row) :
    (groupKeys key d).Nodup :=
  ((List.perm_insertionSort strLeRel _).nodup_iff).mpr
    (List.nodup_dedup _)

lemma groupKeys_cover (key : Row → Option String) (d : List Row) :
    ∀ r ∈ d, ∀ k, key r = some k → k ∈ groupKeys key d := by
  intro r hr k hk
  unfold groupKeys
  rw [(List.perm_insertionSort strLeRel _).mem_iff]
  exact List.mem_dedup.mpr (List.mem_filterMap.mpr ⟨r, hr, hk⟩)

/-- A concrete row whose segment label is null (possible after cleaning:
only `purchaseamount` nulls are dropped). -/
def exRowNullSeg : Row :=
  { label := none
    customerid := some "C3"
    transactionid := some "T3"
    transactiondate := some 2
    productcategory := some "Tech"
    purchaseamount := some 5
    customeragegroup := some "18-25"
    customergender := some "F"
    customerregion := some "West"
    customersatisfaction := some 2
    retailchannel := some "Online" }

/-- Counterexample to claim C4 as stated: on the one-row filtered input
whose segment label is null, the row's revenue of 5 appears in the total
of the measure column but in no group (pandas `groupby` drops null keys),
so the sum over the aggregation's output column is 0 ≠ 5. -/
theorem aggregate_sum_counterexample :
    ¬ (((groupSum (fun r => r.label) (fun r => r.purchaseamount)
          [exRowNullSeg]).map Prod.snd).sum
        = sumMeasure (fun r => r.purchaseamount) [exRowNullSeg]) := by
  decide

/-- Claim C4 (amended): for every filtered input, key column and sum
reduction, the aggregation output is sorted ascending by key, and the sum
of the output column over all groups equals the sum of the measure column
over the rows of the filtered input whose key is non-null (rows with a
null key are excluded by `groupby`; nulls in the measure are excluded
from every sum); the `sat_rev` aggregation's keys are likewise sorted. -/
theorem aggregate_sorted_and_sum (key : Row → Option String)
    (m : Row → Option Int) (d : List Row) :
    ((groupSum key m d).map Prod.fst).Sorted strLeRel ∧
    ((groupSum key m d).map Prod.snd).sum
      = sumMeasure m (d.filter (fun r => (key r).isSome)) ∧
    ((satRev d).map (fun t => t.1)).Sorted strLeRel := by
  refine ⟨?_, ?_, ?_⟩
  · have : (groupSum key m d).map Prod.fst = groupKeys key d := by
      unfold groupSum
      rw [List.map_map]
      exact List.map_id _
    rw [this]
    exact List.sorted_insertionSort strLeRel _
  · unfold groupSum
    rw [List.map_map]
    exact sum_groups key m (groupKeys key d) (groupKeys_nodup key d) d
      (groupKeys_cover key d)
  · have : (satRev d).map (fun t => t.1) = groupKeys (fun r => r.label) d := by
      unfold satRev
      rw [List.map_map]
      exact List.map_id _
    rw [this]
    exact List.sorted_insertionSort strLeRel _

lemma filterMap_id_dedup (l : List (Option String)) :
    (l.dedup).filterMap id = (l.filterMap id).dedup := by
  induction l with
  | nil => rfl
  | cons a l ih =>
    by_cases ha : a ∈ l
    · rw [List.dedup_cons_of_mem ha]
      cases a with
      | none => simpa [List.filterMap_cons] using ih
      | some x =>
        have hx : x ∈ l.filterMap id :=
          List.mem_filterMap.mpr ⟨some x, ha, rfl⟩
        rw [List.filterMap_cons]
        simp only [id]
        rw [List.dedup_cons_of_mem hx]
        exact ih
    · rw [List.dedup_cons_of_not_mem ha]
      cases a with
      | none => simpa [List.filterMap_cons] using ih
      | some x =>
        have hx : x ∉ l.filterMap id := by
          intro hm
          rcases List.mem_filterMap.mp hm with ⟨o, ho, hox⟩
          simp only [id] at hox
          exact ha (hox ▸ ho)
        have h1 : List.filterMap id (some x :: l.dedup)
            = x :: List.filterMap id l.dedup := by simp
        have h2 : List.filterMap id (some x :: l)
            = x :: List.filterMap id l := by simp
        rw [h1, h2, List.dedup_cons_of_not_mem hx, ih]

/-- A concrete cleaned row with segment label "B". -/
def exRowB : Row :=
  { label := some "B"
    customerid := some "C4"
    transactionid := some "T4"
    transactiondate := some 3
    productcategory := some "Home"
    purchaseamount := some 7
    customeragegroup := some "26-35"
    customergender := some "M"
    customerregion := some "East"
    customersatisfaction := some 5
    retailchannel := some "Store" }

/-- Counterexample to claim C9 as stated: on a dataset whose label column
holds "B" and a null, `df["label"].unique()` includes the null, so the
options are not "All" prepended to the sorted non-null distinct values —
Python's `sorted` raises `TypeError` comparing NaN with a string
(modelled as `none`). -/
theorem multiselect_options_counterexample :
    ¬ (multiselectOptions (fun r => r.label) [exRowB, exRowNullSeg]
        = some (some "All" ::
            (specSortedDistinct (fun r => r.label)
              [exRowB, exRowNullSeg]).map some)) := by
  decide

/-- Claim C9 (amended): for every dataset and dimension column that
contains no null values, the presented options are exactly "All"
prepended to the sorted non-null distinct values of the column, and the
default selection is ["All"]; a column mixing nulls with values instead
makes the option computation fail (Python `sorted` raises `TypeError`). -/
theorem multiselect_options_amended (get : Row → Option String)
    (d : List Row) (h : ∀ r ∈ d, (get r).isSome) :
    multiselectOptions get d
      = some (some "All" :: (specSortedDistinct get d).map some) ∧
    defaultSelection = ["All"] := by
  have hnone : none ∉ uniqueVals get d := by
    intro hmem
    rcases List.mem_map.mp (List.mem_dedup.mp hmem) with ⟨r, hr, hget⟩
    have hs := h r hr
    rw [hget] at hs
    simp at hs
  refine ⟨?_, rfl⟩
  unfold multiselectOptions pySorted
  rw [if_neg (fun hc => hnone hc.1)]
  rw [Option.map_some']
  have hfil : (uniqueVals get d).filter (fun v => v.isNone) = [] := by
    rw [List.filter_eq_nil_iff]
    intro v hv hvn
    cases v with
    | none => exact hnone hv
    | some x => exact absurd hvn (by simp)
  rw [hfil, List.append_nil]
  have hinner : (uniqueVals get d).filterMap id = (d.filterMap get).dedup := by
    unfold uniqueVals
    rw [filterMap_id_dedup, List.filterMap_map]
    rfl
  unfold specSortedDistinct
  rw [hinner]

/-- Witness for the amended C9 on a concrete all-non-null dataset. -/
theorem multiselect_options_amended_witness :
    multiselectOptions (fun r => r.label) [exRow]
      = some (some "All" ::
          (specSortedDistinct (fun r => r.label) [exRow]).map some) ∧
    defaultSelection = ["All"] :=
  multiselect_options_amended (fun r => r.label) [exRow] (by decide)

end NovaRetail
